import Mathlib

/-!
Verification of the Google-Drive-to-S3 silver ETL pipeline
(`src/etl/glue_etl_google_drive_to_s3.py`) and of the Athena query helper of
the Streamlit dashboard (`src/streamlit_app/app.py`).

Dataframes are modelled row-major: a cell is an optional value (`none` is a
null/NaN), a row is a list of cells, and a dataframe carries one boolean per
column telling whether that column has a numeric dtype.  Numeric values are
rationals; quantiles and medians follow the pandas defaults (linear
interpolation, skipping nulls).
-/

namespace ETL

/-- A non-null cell value: a number (pandas numeric dtype) or a string. -/
inductive EVal where
  | num (q : ℚ)
  | str (s : String)
deriving DecidableEq

/-- A dataframe cell; `none` models a null / NaN entry. -/
abbrev Cell := Option EVal

/-- A dataframe row, as the tuple of its cells. -/
abbrev Row := List Cell

/-- A dataframe: per-column numeric-dtype flags plus the rows. -/
structure DF where
  dtypes : List Bool
  rows : List Row
deriving DecidableEq

/-- Deduplication worker: keep an element when it was not seen before it. -/
def dedupAux {α : Type} [DecidableEq α] (seen : List α) : List α → List α
  | [] => []
  | x :: xs => if x ∈ seen then dedupAux seen xs else x :: dedupAux (x :: seen) xs

/-- Deduplication keeping the first occurrence of each element, as pandas
`drop_duplicates` (keep defaults to first). -/
def dedupF {α : Type} [DecidableEq α] (l : List α) : List α := dedupAux [] l

/-- Cell of row `r` in column `j` (out-of-range reads as null). -/
def getCell (r : Row) (j : ℕ) : Cell := r.getD j none

/-- Row `r` with column `j` replaced by `c`. -/
def setCell (r : Row) (j : ℕ) (c : Cell) : Row := r.set j c

/-- The cells of column `j`. -/
def colCells (rows : List Row) (j : ℕ) : List Cell := rows.map (fun r => getCell r j)

/-- Does column `j` contain a null (`df[col].isnull().any()`)? -/
def colHasNull (rows : List Row) (j : ℕ) : Bool :=
  (colCells rows j).any (fun c => c.isNone)

/-- The numeric values among a list of cells (nulls skipped). -/
def numsOf (cells : List Cell) : List ℚ :=
  cells.filterMap (fun c => match c with | some (.num q) => some q | _ => none)

/-- The non-null values among a list of cells. -/
def valsOf (cells : List Cell) : List EVal := cells.filterMap id

/-- Insertion into a sorted list of rationals. -/
def insertQ (x : ℚ) : List ℚ → List ℚ
  | [] => [x]
  | y :: ys => if x ≤ y then x :: y :: ys else y :: insertQ x ys

/-- Ascending insertion sort. -/
def sortQ (l : List ℚ) : List ℚ := l.foldr insertQ []

/-- Median of a list of rationals, as pandas `Series.median` on the non-null
values: the middle of the sorted values, or the mean of the two middles. -/
def medianQ (vs : List ℚ) : Option ℚ :=
  let s := sortQ vs
  let n := s.length
  if n = 0 then none
  else if n % 2 = 1 then some (s.getD (n / 2) 0)
  else some ((s.getD (n / 2 - 1) 0 + s.getD (n / 2) 0) / 2)

/-- Total order used to pick the smallest mode, mirroring that pandas
`Series.mode` returns its answers sorted ascending. -/
def evLe (a b : EVal) : Bool :=
  match a, b with
  | .num x, .num y => decide (x ≤ y)
  | .num _, .str _ => true
  | .str _, .num _ => false
  | .str x, .str y => decide (x ≤ y)

/-- First entry of pandas `Series.mode()`: among the values of maximal
multiplicity, the smallest; `none` when there are no values at all. -/
def modeMin (vs : List EVal) : Option EVal :=
  match dedupF vs with
  | [] => none
  | c :: cs =>
    some (cs.foldl (fun best x =>
      if vs.count best < vs.count x ∨ (vs.count x = vs.count best ∧ evLe x best = true)
      then x else best) c)

/-- Fill a null cell with the column median (`fillna(median)`); a missing
median (all-null column) leaves the null in place. -/
def fillCellNum (m : Option ℚ) (c : Cell) : Cell :=
  match c with
  | none => m.map EVal.num
  | some v => some v

/-- Fill a null cell with the column mode, or the string literal used by the
pipeline when the column has no mode. -/
def fillCellStr (mv : Option EVal) (c : Cell) : Cell :=
  match c with
  | none => some (mv.getD (.str "Unknown"))
  | some v => some v

/-- Missing-value treatment of column `j`: median for numeric dtype, else the
first mode, else the fallback string. -/
def fillColAt (isNum : Bool) (rows : List Row) (j : ℕ) : List Row :=
  if isNum then
    let m := medianQ (numsOf (colCells rows j))
    rows.map (fun r => setCell r j (fillCellNum m (getCell r j)))
  else
    let mv := modeMin (valsOf (colCells rows j))
    rows.map (fun r => setCell r j (fillCellStr mv (getCell r j)))

/-- Floor of a nonnegative rational as a natural number. -/
def floorNN (q : ℚ) : ℕ := q.num.toNat / q.den

/-- Pandas `Series.quantile(q)` with the default linear interpolation over the
sorted values; `none` on an empty list (a NaN quantile). -/
def quantileAt (q : ℚ) (vs : List ℚ) : Option ℚ :=
  let s := sortQ vs
  match s with
  | [] => none
  | _ :: _ =>
    let n := s.length
    let h : ℚ := q * ((n : ℚ) - 1)
    let i := floorNN h
    let frac : ℚ := h - (i : ℚ)
    some (s.getD i 0 + frac * (s.getD (min (i + 1) (n - 1)) 0 - s.getD i 0))

/-- Clip a numeric cell into `[lo, hi]`; nulls and non-numeric cells pass
through, as pandas `clip` does. -/
def clipCell (lo hi : ℚ) (c : Cell) : Cell :=
  match c with
  | some (.num q) => some (.num (min hi (max lo q)))
  | other => other

/-- IQR capping of column `j`: clip into `[Q1 - 1.5*IQR, Q3 + 1.5*IQR]`; when
the quartiles are NaN (no numeric values) pandas clips with NaN thresholds,
which leaves every value unchanged. -/
def clipColAt (rows : List Row) (j : ℕ) : List Row :=
  let vs := numsOf (colCells rows j)
  match quantileAt (1 / 4) vs, quantileAt (3 / 4) vs with
  | some q1, some q3 =>
    let iqr := q3 - q1
    let lo := q1 - 3 / 2 * iqr
    let hi := q3 + 3 / 2 * iqr
    rows.map (fun r => setCell r j (clipCell lo hi (getCell r j)))
  | _, _ => rows

/-- The outlier loop of `clean_dataframe`: IQR capping over the numeric
columns, in column order. -/
def clipStep (dtypes : List Bool) (rows : List Row) : List Row :=
  (List.range dtypes.length).foldl
    (fun rs j => if dtypes.getD j false then clipColAt rs j else rs) rows

/-- The missing-value loop of `clean_dataframe` as written: every column is
visited in order, and a column is filled only when it currently contains a
null. -/
def fillStepGuarded (dtypes : List Bool) (rows : List Row) : List Row :=
  (List.range dtypes.length).foldl
    (fun rs j => if colHasNull rs j then fillColAt (dtypes.getD j false) rs j else rs) rows

/-- `clean_dataframe` from the ETL script: fill missing values (only when some
column has a null), drop duplicate rows (only when there is a duplicate), then
cap outliers per numeric column. -/
def cleanDataframe (df : DF) : DF :=
  let rows1 := if (List.range df.dtypes.length).any (fun j => colHasNull df.rows j)
    then fillStepGuarded df.dtypes df.rows else df.rows
  let rows2 := if rows1.Nodup then rows1 else dedupF rows1
  ⟨df.dtypes, clipStep df.dtypes rows2⟩

/-- The missing-value pass with no guards: every column is filled. -/
def fillStepAll (dtypes : List Bool) (rows : List Row) : List Row :=
  (List.range dtypes.length).foldl
    (fun rs j => fillColAt (dtypes.getD j false) rs j) rows

/-- The cleaning pipeline exactly as the specification words it: fill every
null (step 1), drop duplicate rows (step 2), clip numeric columns to the IQR
fences (step 3), in this order and unconditionally. -/
def cleanSpec (df : DF) : DF :=
  ⟨df.dtypes, clipStep df.dtypes (dedupF (fillStepAll df.dtypes df.rows))⟩

/-- A Google Drive file as returned by the listing call: its id and name. -/
structure File where
  id : String
  name : String
deriving DecidableEq

/-- How the pipeline run ends abnormally: `sys.exit(code)` or a propagated
exception carrying a message. -/
inductive Err where
  | exit (code : ℕ)
  | fail (msg : String)
deriving DecidableEq

/-- What `get_object` plus `read_parquet` can come back with for a key: a
stored dataframe, a `NoSuchKey` error, or any other read/parse failure. -/
inductive LoadOutcome where
  | found (rows : List Row)
  | missing
  | readErr (msg : String)
deriving DecidableEq

/-- The S3 silver bucket, as the load outcome each key currently produces. -/
abbrev S3State := String → LoadOutcome

/-- Point update of the bucket after a successful `put_object`. -/
def updateStore (st : S3State) (k : String) (v : LoadOutcome) : S3State :=
  fun q => if q = k then v else st q

/-- The observable steps of the pipeline, in the order they are executed. -/
inductive Ev where
  | auth
  | listCsv
  | download (f : File)
  | clean (f : File)
  | loadOld (f : File) (key : String)
  | upload (f : File) (key : String)
deriving DecidableEq

/-- The file a pipeline step is about, if any. -/
def fileOf : Ev → Option File
  | .auth => none
  | .listCsv => none
  | .download f => some f
  | .clean f => some f
  | .loadOld f _ => some f
  | .upload f _ => some f

/-- Is this step an S3 object write? -/
def isUpload : Ev → Bool
  | .upload _ _ => true
  | _ => false

/-- Python truthiness of an optional environment variable: unset and the
empty string are both falsy. -/
def truthy : Option String → Bool
  | none => false
  | some s => !(s == "")

/-- ASCII lowercasing of one character, as Python `str.lower` on ASCII. -/
def lowerChar (c : Char) : Char :=
  if 'A' ≤ c ∧ c ≤ 'Z' then Char.ofNat (c.toNat + 32) else c

/-- ASCII lowercasing of a string. -/
def lowerStr (s : String) : String := String.mk (s.data.map lowerChar)

/-- Python `str.replace`, scanning left to right over the characters: when
`skip` is positive the character belongs to an occurrence already replaced and
is dropped; otherwise an occurrence of `pat` starting here is replaced by
`repl` (its remaining characters are skipped), and any other character is
kept. -/
def replaceAux (pat repl : List Char) : ℕ → List Char → List Char
  | _, [] => []
  | n + 1, _ :: cs => replaceAux pat repl n cs
  | 0, c :: cs =>
    if pat.isPrefixOf (c :: cs) ∧ pat ≠ [] then
      repl ++ replaceAux pat repl (pat.length - 1) cs
    else
      c :: replaceAux pat repl 0 cs

/-- Python `str.replace` on strings: replace every non-overlapping occurrence
of `pat`, left to right. -/
def replaceStr (s pat repl : String) : String :=
  String.mk (replaceAux pat.data repl.data 0 s.data)

/-- The `EXPECTED_FILES` mapping of the ETL script. -/
def EXPECTED_FILES : List (String × String) :=
  [("fy_2024_snf_vbp_aggregate_performance.csv", "fy_2024_snf_vbp_aggregate_performance_parquet"),
   ("fy_2024_snf_vbp_facility_performance.csv", "fy_2024_snf_vbp_facility_performance_parquet"),
   ("nh_citationdescriptions_oct2024.csv", "nh_citationdescriptions_oct2024_parquet"),
   ("nh_firesafetycitations_oct2024.csv", "nh_firesafetycitations_oct2024_parquet"),
   ("nh_healthcitations_oct2024.csv", "nh_healthcitations_oct2024_parquet"),
   ("nh_hlthinspeccutpointsstate_oct2024.csv", "nh_hlthinspeccutpointsstate_oct2024_parquet"),
   ("nh_covidvaxaverages_20241027.csv", "nh_covidvaxaverages_20241027_parquet"),
   ("nh_covidvaxprovider_20241027.csv", "nh_covidvaxprovider_20241027_parquet"),
   ("nh_datacollectionintervals_oct2024.csv", "nh_datacollectionintervals_oct2024_parquet"),
   ("nh_surveydates_oct2024.csv", "nh_surveydates_oct2024_parquet"),
   ("nh_surveysummary_oct2024.csv", "nh_surveysummary_oct2024_parquet"),
   ("nh_ownership_oct2024.csv", "nh_ownership_oct2024_parquet"),
   ("nh_penalties_oct2024.csv", "nh_penalties_oct2024_parquet"),
   ("nh_providerinfo_oct2024.csv", "nh_providerinfo_oct2024_parquet"),
   ("nh_qualitymsr_claims_oct2024.csv", "nh_qualitymsr_claims_oct2024_parquet"),
   ("nh_qualitymsr_mds_oct2024.csv", "nh_qualitymsr_mds_oct2024_parquet"),
   ("nh_stateusaverages_oct2024.csv", "nh_stateusaverages_oct2024_parquet"),
   ("skilled_nursing_facility_quality_reporting_program_national_data_oct2024.csv",
    "skilled_nursing_facility_quality_reporting_program_national_data_oct2024_parquet"),
   ("skilled_nursing_facility_quality_reporting_program_provider_data_oct2024.csv",
    "skilled_nursing_facility_quality_reporting_program_provider_data_oct2024_parquet"),
   ("swing_bed_snf_data_oct2024.csv", "swing_bed_snf_data_oct2024_parquet")]

/-- The parquet-name mapping of `main`, on the lowercased file name: the
`EXPECTED_FILES` entry when the name is a key of the mapping, else the name
with each ".csv" replaced by "_parquet". -/
def parquetName (nameLower : String) : String :=
  if (EXPECTED_FILES.lookup nameLower).isSome then
    (EXPECTED_FILES.lookup nameLower).getD ""
  else
    replaceStr nameLower ".csv" "_parquet"

/-- The external world of one run: environment variables and the outcomes of
the vendor calls (Google auth, Drive listing and download, CSV parsing, and
whether a `put_object` raises for a key). -/
structure Env where
  folderId : Option String
  bucket : Option String
  pfx : String
  authTok : Except Err String
  listRes : Except Err (List File)
  downloadRes : String → String → Except Err String
  parseCsv : String → Except Err DF
  uploadFail : String → Bool

/-- The object key a listed file is written under. -/
def keyFor (env : Env) (f : File) : String :=
  env.pfx ++ parquetName (lowerStr f.name)

/-- `load_existing_parquet`: the stored dataframe when the read succeeds, and
an empty dataframe on `NoSuchKey` and on every other failure; it never lets an
exception escape. -/
def loadExisting : LoadOutcome → List Row
  | .found rs => rs
  | .missing => []
  | .readErr _ => []

/-- One iteration of the `main` loop: download, parse, clean, map the name to
its key, load the existing parquet, filter the new rows already stored, append
them after the stored rows (or keep just the new rows when nothing is stored),
drop duplicates, and write.  Returns the events performed, the bucket state
after the iteration, and the propagated exception if one was raised. -/
def processFile (env : Env) (tok : String) (st : S3State) (f : File) :
    List Ev × S3State × Option Err :=
  match env.downloadRes f.id tok with
  | .error e => ([.download f], st, some e)
  | .ok csvText =>
    match env.parseCsv csvText with
    | .error e => ([.download f], st, some e)
    | .ok dfNew =>
      let key := keyFor env f
      let old := loadExisting (st key)
      let nw := (cleanDataframe dfNew).rows
      let fin := dedupF (if old.isEmpty then nw
        else old ++ nw.filter (fun r => !(old.contains r)))
      if env.uploadFail key then
        ([.download f, .clean f, .loadOld f key], st, some (.fail "upload"))
      else
        ([.download f, .clean f, .loadOld f key, .upload f key],
         updateStore st key (.found fin), none)

/-- The `for` loop of `main`: files are processed one at a time in list order,
and the first propagated exception aborts the rest of the loop. -/
def runFiles (env : Env) (tok : String) : S3State → List File → List Ev × S3State × Option Err
  | st, [] => ([], st, none)
  | st, f :: fs =>
    let p := processFile env tok st f
    match p.2.2 with
    | some _ => p
    | none =>
      let r := runFiles env tok p.2.1 fs
      (p.1 ++ r.1, r.2)

/-- `main`: check the required environment variables (exiting with status 1
when one is missing), authenticate once, list the folder once, then run the
per-file loop. -/
def mainRun (env : Env) (st : S3State) : List Ev × S3State × Option Err :=
  if truthy env.folderId && truthy env.bucket then
    match env.authTok with
    | .error e => ([.auth], st, some e)
    | .ok tok =>
      match env.listRes with
      | .error e => ([.auth, .listCsv], st, some e)
      | .ok files =>
        let r := runFiles env tok st files
        (Ev.auth :: Ev.listCsv :: r.1, r.2)
  else ([], st, some (.exit 1))

/-- Is an Athena query state terminal for the polling loop? -/
def isTerminalStatus (s : String) : Bool :=
  s == "SUCCEEDED" || s == "FAILED" || s == "CANCELLED"

/-- The status the polling loop stops at: the first terminal status of the
observed status sequence (`none` when the loop would poll forever). -/
def firstTerminal : List String → Option String
  | [] => none
  | s :: rest => if isTerminalStatus s then some s else firstTerminal rest

/-- A cell of an Athena result row: the `VarCharValue` entry when present. -/
abbrev ACell := Option String

/-- The header extraction `[c["VarCharValue"] for c in rows[0]["Data"]]`: it
raises a `KeyError` (here `none`) when a header cell has no value. -/
def allSome : List ACell → Option (List String)
  | [] => some []
  | none :: _ => none
  | some v :: rest => (allSome rest).map (fun t => v :: t)

/-- `run_athena_query` of the dashboard, over the polled status sequence and
the result rows the service returns on success: poll until a terminal status;
on a non-`SUCCEEDED` final status return an empty dataframe; otherwise use the
first result row as column names and the remaining rows as data.  `none`
models a run that never returns normally (endless polling or a raised
exception). -/
def runAthenaQuery (statuses : List String) (resRows : List (List ACell)) :
    Option (List String × List (List ACell)) :=
  match firstTerminal statuses with
  | none => none
  | some s =>
    if s != "SUCCEEDED" then some ([], [])
    else
      match resRows with
      | [] => none
      | hrow :: rest =>
        match allSome hrow with
        | none => none
        | some hdr => some (hdr, rest)

/-- The event block a single file contributes to the run trace when its
iteration completes: download, clean, load of the existing object, upload. -/
def blocksOf (env : Env) : List File → List Ev
  | [] => []
  | f :: fs =>
    Ev.download f :: Ev.clean f :: Ev.loadOld f (keyFor env f) ::
      Ev.upload f (keyFor env f) :: blocksOf env fs

/-- The parquet-name mapping as the specification words it: the
`EXPECTED_FILES` value at the lowercased name when that name is a key of the
mapping, and otherwise the lowercased name with ".csv" replaced by
"_parquet". -/
def parquetNameSpec (name : String) : String :=
  match EXPECTED_FILES.lookup (lowerStr name) with
  | some p => p
  | none => replaceStr (lowerStr name) ".csv" "_parquet"

/-! Concrete fixtures used to instantiate the theorems. -/

def fileA : File := ⟨"idA", "A.csv"⟩

def fileB : File := ⟨"idB", "B.csv"⟩

def rowX : Row := [some (.str "x")]

def rowY : Row := [some (.str "y")]

def dfXY : DF := ⟨[false], [rowX, rowY]⟩

def keyA : String := "datasets/a_parquet"

def stEmpty : S3State := fun _ => .missing

def stWithX : S3State := updateStore stEmpty keyA (.found [rowX])

def stWithXY : S3State := updateStore stEmpty keyA (.found [rowX, rowY])

def envOk : Env :=
  ⟨some "folder", some "bucket", "datasets/", .ok "token", .ok [fileA],
   fun _ _ => .ok "csvtext", fun _ => .ok dfXY, fun _ => false⟩

def envAuthFail : Env := { envOk with authTok := .error (.fail "auth") }

def envListFail : Env := { envOk with listRes := .error (.fail "list") }

def envDlFail : Env := { envOk with downloadRes := fun _ _ => .error (.fail "download") }

def envNoFolder : Env := { envOk with folderId := none }

/-! Basic lemmas about the row and deduplication operations. -/

theorem setCell_getCell (r : Row) (j : ℕ) : setCell r j (getCell r j) = r := by
  simp only [setCell, getCell]
  induction r generalizing j with
  | nil => rfl
  | cons a as ih =>
    cases j with
    | zero => rfl
    | succ n =>
      rw [List.getD_cons_succ, List.set_cons_succ]
      exact congrArg (List.cons a) (ih n)

theorem list_map_self {α : Type} (l : List α) (f : α → α) (h : ∀ a ∈ l, f a = a) :
    l.map f = l := by
  induction l with
  | nil => rfl
  | cons a as ih =>
    simp [h a (List.mem_cons_self a as), ih (fun x hx => h x (List.mem_cons_of_mem _ hx))]

theorem fillColAt_of_no_null (b : Bool) (rs : List Row) (j : ℕ)
    (h : colHasNull rs j = false) : fillColAt b rs j = rs := by
  have hv : ∀ r ∈ rs, ∃ v, getCell r j = some v := by
    intro r hr
    cases hg : getCell r j with
    | some v => exact ⟨v, rfl⟩
    | none =>
      exfalso
      have hn : colHasNull rs j = true := by
        simp only [colHasNull, colCells, List.any_eq_true]
        exact ⟨none, List.mem_map.mpr ⟨r, hr, hg⟩, rfl⟩
      rw [hn] at h
      exact Bool.noConfusion h
  cases b with
  | true =>
    simp only [fillColAt, if_pos]
    apply list_map_self
    intro r hr
    obtain ⟨v, hvr⟩ := hv r hr
    rw [hvr]
    show setCell r j (some v) = r
    rw [← hvr, setCell_getCell]
  | false =>
    simp only [fillColAt, if_neg]
    apply list_map_self
    intro r hr
    obtain ⟨v, hvr⟩ := hv r hr
    rw [hvr]
    show setCell r j (some v) = r
    rw [← hvr, setCell_getCell]

theorem mem_dedupAux {α : Type} [DecidableEq α] (a : α) (l : List α) :
    ∀ seen : List α, a ∈ dedupAux seen l ↔ a ∈ l ∧ a ∉ seen := by
  induction l with
  | nil => intro seen; simp [dedupAux]
  | cons x xs ih =>
    intro seen
    by_cases hx : x ∈ seen
    · rw [dedupAux, if_pos hx]
      rw [ih]
      simp only [List.mem_cons]
      by_cases hax : a = x
      · subst hax; simp [hx]
      · simp [hax]
    · rw [dedupAux, if_neg hx]
      simp only [List.mem_cons, ih, List.mem_cons]
      by_cases hax : a = x
      · subst hax; simp [hx]
      · simp [hax]

theorem nodup_dedupAux {α : Type} [DecidableEq α] (l : List α) :
    ∀ seen : List α, (dedupAux seen l).Nodup := by
  induction l with
  | nil => intro seen; simp [dedupAux]
  | cons x xs ih =>
    intro seen
    by_cases hx : x ∈ seen
    · rw [dedupAux, if_pos hx]; exact ih seen
    · rw [dedupAux, if_neg hx]
      refine List.nodup_cons.mpr ⟨?_, ih _⟩
      intro hmem
      exact ((mem_dedupAux x xs (x :: seen)).mp hmem).2 (List.mem_cons_self _ _)

theorem dedupAux_of_nodup {α : Type} [DecidableEq α] (l : List α) :
    ∀ seen : List α, l.Nodup → (∀ a ∈ l, a ∉ seen) → dedupAux seen l = l := by
  induction l with
  | nil => intro seen _ _; rfl
  | cons x xs ih =>
    intro seen hnd hdisj
    rw [dedupAux, if_neg (hdisj x (List.mem_cons_self x xs))]
    congr 1
    apply ih _ (List.nodup_cons.mp hnd).2
    intro a ha hmem
    rcases List.mem_cons.mp hmem with hax | hmem
    · exact (List.nodup_cons.mp hnd).1 (hax ▸ ha)
    · exact hdisj a (List.mem_cons_of_mem _ ha) hmem

theorem mem_dedupF {α : Type} [DecidableEq α] (a : α) (l : List α) :
    a ∈ dedupF l ↔ a ∈ l := by
  simp [dedupF, mem_dedupAux]

theorem nodup_dedupF {α : Type} [DecidableEq α] (l : List α) : (dedupF l).Nodup :=
  nodup_dedupAux l []

theorem dedupF_of_nodup {α : Type} [DecidableEq α] (l : List α) (h : l.Nodup) :
    dedupF l = l :=
  dedupAux_of_nodup l [] h (by simp)

/-! Guard elimination for the missing-value pass. -/

theorem foldl_fill_unguard (d : ℕ → Bool) (idxs : List ℕ) :
    ∀ rs : List Row,
      idxs.foldl (fun rs2 j => if colHasNull rs2 j then fillColAt (d j) rs2 j else rs2) rs =
      idxs.foldl (fun rs2 j => fillColAt (d j) rs2 j) rs := by
  induction idxs with
  | nil => intro rs; rfl
  | cons j js ih =>
    intro rs
    simp only [List.foldl_cons]
    cases hc : colHasNull rs j with
    | true => simp only [if_pos]; exact ih _
    | false =>
      rw [if_neg (by simp [hc]), fillColAt_of_no_null _ _ _ hc]
      exact ih _

theorem foldl_fill_id (d : ℕ → Bool) (idxs : List ℕ) (rs : List Row)
    (h : ∀ j ∈ idxs, colHasNull rs j = false) :
    idxs.foldl (fun rs2 j => fillColAt (d j) rs2 j) rs = rs := by
  induction idxs with
  | nil => rfl
  | cons j js ih =>
    simp only [List.foldl_cons]
    rw [fillColAt_of_no_null _ _ _ (h j (List.mem_cons_self j js))]
    exact ih (fun i hi => h i (List.mem_cons_of_mem _ hi))

/-! Lemmas about the pipeline loop. -/

theorem keyFor_eq_spec (env : Env) (f : File) :
    keyFor env f = env.pfx ++ parquetNameSpec f.name := by
  unfold keyFor parquetName parquetNameSpec
  cases h : EXPECTED_FILES.lookup (lowerStr f.name) with
  | some p => simp [h]
  | none => simp [h]

theorem filter_not_contains (old nw : List Row) :
    nw.filter (fun r => !(old.contains r)) = nw.filter (fun r => decide (r ∉ old)) := by
  apply List.filter_congr
  intro a _
  by_cases h : a ∈ old <;> simp [List.contains, List.elem_iff, h]

theorem processFile_ok_parts (env : Env) (tok : String) (st : S3State) (f : File)
    (csvT : String) (df : DF)
    (hd : env.downloadRes f.id tok = .ok csvT)
    (hp : env.parseCsv csvT = .ok df)
    (hu : env.uploadFail (keyFor env f) = false) :
    processFile env tok st f =
      ([Ev.download f, Ev.clean f, Ev.loadOld f (keyFor env f), Ev.upload f (keyFor env f)],
       updateStore st (keyFor env f)
         (.found (dedupF (if (loadExisting (st (keyFor env f))).isEmpty
            then (cleanDataframe df).rows
            else loadExisting (st (keyFor env f)) ++
              (cleanDataframe df).rows.filter
                (fun r => !((loadExisting (st (keyFor env f))).contains r))))),
       none) := by
  unfold processFile
  simp only [hd, hp, hu, Bool.false_eq_true, if_false]

theorem processFile_dl_err (env : Env) (tok : String) (st : S3State) (f : File) (e : Err)
    (hd : env.downloadRes f.id tok = .error e) :
    processFile env tok st f = ([Ev.download f], st, some e) := by
  unfold processFile
  simp only [hd]

theorem processFile_parse_err (env : Env) (tok : String) (st : S3State) (f : File)
    (csvT : String) (e : Err)
    (hd : env.downloadRes f.id tok = .ok csvT)
    (hp : env.parseCsv csvT = .error e) :
    processFile env tok st f = ([Ev.download f], st, some e) := by
  unfold processFile
  simp only [hd, hp]

theorem processFile_upload_err (env : Env) (tok : String) (st : S3State) (f : File)
    (csvT : String) (df : DF)
    (hd : env.downloadRes f.id tok = .ok csvT)
    (hp : env.parseCsv csvT = .ok df)
    (hu : env.uploadFail (keyFor env f) = true) :
    processFile env tok st f =
      ([Ev.download f, Ev.clean f, Ev.loadOld f (keyFor env f)], st, some (.fail "upload")) := by
  unfold processFile
  simp only [hd, hp]
  simp only [hu, if_true]

theorem processFile_evs_file (env : Env) (tok : String) (st : S3State) (f : File) :
    ∀ ev ∈ (processFile env tok st f).1, fileOf ev = some f := by
  cases hd : env.downloadRes f.id tok with
  | error e =>
    rw [processFile_dl_err env tok st f e hd]
    intro ev hev
    simp only [List.mem_singleton] at hev
    subst hev; rfl
  | ok csvT =>
    cases hp : env.parseCsv csvT with
    | error e =>
      rw [processFile_parse_err env tok st f csvT e hd hp]
      intro ev hev
      simp only [List.mem_singleton] at hev
      subst hev; rfl
    | ok df =>
      cases hu : env.uploadFail (keyFor env f) with
      | true =>
        rw [processFile_upload_err env tok st f csvT df hd hp hu]
        intro ev hev
        simp only [List.mem_cons, List.not_mem_nil, or_false] at hev
        rcases hev with rfl | rfl | rfl <;> rfl
      | false =>
        rw [processFile_ok_parts env tok st f csvT df hd hp hu]
        intro ev hev
        simp only [List.mem_cons, List.not_mem_nil, or_false] at hev
        rcases hev with rfl | rfl | rfl | rfl <;> rfl

theorem processFile_store_cases (env : Env) (tok : String) (st : S3State) (f : File)
    (k : String) :
    (processFile env tok st f).2.1 k = st k ∨
    ∃ rs, (processFile env tok st f).2.1 k = .found rs ∧ rs.Nodup := by
  cases hd : env.downloadRes f.id tok with
  | error e => rw [processFile_dl_err env tok st f e hd]; left; rfl
  | ok csvT =>
    cases hp : env.parseCsv csvT with
    | error e => rw [processFile_parse_err env tok st f csvT e hd hp]; left; rfl
    | ok df =>
      cases hu : env.uploadFail (keyFor env f) with
      | true => rw [processFile_upload_err env tok st f csvT df hd hp hu]; left; rfl
      | false =>
        rw [processFile_ok_parts env tok st f csvT df hd hp hu]
        by_cases hk : k = keyFor env f
        · right
          subst hk
          refine ⟨dedupF (if (loadExisting (st (keyFor env f))).isEmpty = true
              then (cleanDataframe df).rows
              else loadExisting (st (keyFor env f)) ++
                (cleanDataframe df).rows.filter
                  (fun r => !((loadExisting (st (keyFor env f))).contains r))),
            ?_, nodup_dedupF _⟩
          simp [updateStore]
        · left
          simp only [updateStore, if_neg hk]

theorem processFile_evs_of_ok (env : Env) (tok : String) (st : S3State) (f : File)
    (h : (processFile env tok st f).2.2 = none) :
    (processFile env tok st f).1 =
      [Ev.download f, Ev.clean f, Ev.loadOld f (keyFor env f), Ev.upload f (keyFor env f)] := by
  cases hd : env.downloadRes f.id tok with
  | error e => rw [processFile_dl_err env tok st f e hd] at h; exact absurd h (by simp)
  | ok csvT =>
    cases hp : env.parseCsv csvT with
    | error e =>
      rw [processFile_parse_err env tok st f csvT e hd hp] at h
      exact absurd h (by simp)
    | ok df =>
      cases hu : env.uploadFail (keyFor env f) with
      | true =>
        rw [processFile_upload_err env tok st f csvT df hd hp hu] at h
        exact absurd h (by simp)
      | false =>
        rw [processFile_ok_parts env tok st f csvT df hd hp hu]

theorem updateStore_self (st : S3State) (k : String) (v : LoadOutcome) :
    updateStore st k v k = v := by
  simp [updateStore]

theorem processFile_ok_store (env : Env) (tok : String) (st : S3State) (f : File)
    (csvT : String) (df : DF)
    (hd : env.downloadRes f.id tok = .ok csvT)
    (hp : env.parseCsv csvT = .ok df)
    (hu : env.uploadFail (keyFor env f) = false) :
    (processFile env tok st f).2.1 (keyFor env f) =
      .found (dedupF (if (loadExisting (st (keyFor env f))).isEmpty = true
        then (cleanDataframe df).rows
        else loadExisting (st (keyFor env f)) ++
          (cleanDataframe df).rows.filter
            (fun r => !((loadExisting (st (keyFor env f))).contains r)))) := by
  rw [processFile_ok_parts env tok st f csvT df hd hp hu]
  exact updateStore_self _ _ _

theorem runFiles_cons (env : Env) (tok : String) (st : S3State) (f : File) (fs : List File) :
    runFiles env tok st (f :: fs) =
      match (processFile env tok st f).2.2 with
      | some _ => processFile env tok st f
      | none =>
        ((processFile env tok st f).1 ++ (runFiles env tok (processFile env tok st f).2.1 fs).1,
         (runFiles env tok (processFile env tok st f).2.1 fs).2) := rfl

theorem runFiles_cons_err (env : Env) (tok : String) (st : S3State) (f : File)
    (fs : List File) (e : Err)
    (h : (processFile env tok st f).2.2 = some e) :
    runFiles env tok st (f :: fs) = processFile env tok st f := by
  rw [runFiles_cons, h]

theorem runFiles_cons_ok (env : Env) (tok : String) (st : S3State) (f : File)
    (fs : List File)
    (h : (processFile env tok st f).2.2 = none) :
    runFiles env tok st (f :: fs) =
      ((processFile env tok st f).1 ++ (runFiles env tok (processFile env tok st f).2.1 fs).1,
       (runFiles env tok (processFile env tok st f).2.1 fs).2) := by
  rw [runFiles_cons, h]

theorem runFiles_ok_trace (env : Env) (tok : String) :
    ∀ (fs : List File) (st : S3State), (runFiles env tok st fs).2.2 = none →
      (runFiles env tok st fs).1 = blocksOf env fs := by
  intro fs
  induction fs with
  | nil => intro st _; rfl
  | cons f fs ih =>
    intro st h
    cases hp : (processFile env tok st f).2.2 with
    | some e =>
      rw [runFiles_cons_err env tok st f fs e hp, hp] at h
      exact absurd h (by simp)
    | none =>
      rw [runFiles_cons_ok env tok st f fs hp] at h ⊢
      replace h : (runFiles env tok (processFile env tok st f).2.1 fs).2.2 = none := h
      show (processFile env tok st f).1 ++
          (runFiles env tok (processFile env tok st f).2.1 fs).1 = blocksOf env (f :: fs)
      rw [processFile_evs_of_ok env tok st f hp, ih _ h]
      rfl

theorem runFiles_store_inv (env : Env) (tok : String) :
    ∀ (fs : List File) (st : S3State) (k : String),
      (runFiles env tok st fs).2.1 k = st k ∨
      ∃ rs, (runFiles env tok st fs).2.1 k = .found rs ∧ rs.Nodup := by
  intro fs
  induction fs with
  | nil => intro st k; left; rfl
  | cons f fs ih =>
    intro st k
    cases hp : (processFile env tok st f).2.2 with
    | some e =>
      rw [runFiles_cons_err env tok st f fs e hp]
      exact processFile_store_cases env tok st f k
    | none =>
      rw [runFiles_cons_ok env tok st f fs hp]
      show (runFiles env tok (processFile env tok st f).2.1 fs).2.1 k = st k ∨
        ∃ rs, (runFiles env tok (processFile env tok st f).2.1 fs).2.1 k = .found rs ∧ rs.Nodup
      rcases ih (processFile env tok st f).2.1 k with h1 | ⟨rs, h1, h2⟩
      · rw [h1]
        exact processFile_store_cases env tok st f k
      · right; exact ⟨rs, h1, h2⟩

theorem mainRun_ok_parts (env : Env) (st : S3State)
    (h : (mainRun env st).2.2 = none) :
    ∃ tok files, env.authTok = .ok tok ∧ env.listRes = .ok files ∧
      (mainRun env st).1 = Ev.auth :: Ev.listCsv :: (runFiles env tok st files).1 ∧
      (runFiles env tok st files).2.1 = (mainRun env st).2.1 ∧
      (runFiles env tok st files).2.2 = none := by
  unfold mainRun at h ⊢
  cases hc : (truthy env.folderId && truthy env.bucket) with
  | false =>
    rw [hc] at h
    exact Option.noConfusion h
  | true =>
    rw [hc] at h
    rw [if_pos rfl] at h ⊢
    cases ha : env.authTok with
    | error e =>
      rw [ha] at h
      exact Option.noConfusion h
    | ok tok =>
      rw [ha] at h
      cases hl : env.listRes with
      | error e =>
        rw [hl] at h
        exact Option.noConfusion h
      | ok files =>
        rw [hl] at h
        exact ⟨tok, files, rfl, rfl, rfl, rfl, h⟩

theorem mainRun_auth_err (env : Env) (st : S3State) (e : Err)
    (hc : (truthy env.folderId && truthy env.bucket) = true)
    (ha : env.authTok = .error e) :
    mainRun env st = ([Ev.auth], st, some e) := by
  unfold mainRun
  rw [hc, if_pos rfl, ha]

theorem mainRun_list_err (env : Env) (st : S3State) (tok : String) (e : Err)
    (hc : (truthy env.folderId && truthy env.bucket) = true)
    (ha : env.authTok = .ok tok)
    (hl : env.listRes = .error e) :
    mainRun env st = ([Ev.auth, Ev.listCsv], st, some e) := by
  unfold mainRun
  rw [hc, if_pos rfl, ha]
  show (match env.listRes with
    | .error e => ([Ev.auth, Ev.listCsv], st, some e)
    | .ok files =>
      let r := runFiles env tok st files
      (Ev.auth :: Ev.listCsv :: r.1, r.2)) = ([Ev.auth, Ev.listCsv], st, some e)
  rw [hl]

theorem mainRun_trace_shape (env : Env) (st : S3State) (files : List File)
    (h : (mainRun env st).2.2 = none) (hlist : env.listRes = .ok files) :
    (mainRun env st).1 = Ev.auth :: Ev.listCsv :: blocksOf env files := by
  obtain ⟨tok, files0, _, hl, htr, _, hrf⟩ := mainRun_ok_parts env st h
  rw [hlist] at hl
  injection hl with hff
  subst hff
  rw [htr, runFiles_ok_trace env tok files st hrf]

theorem blocksOf_auth_not_mem (env : Env) (fs : List File) : Ev.auth ∉ blocksOf env fs := by
  induction fs with
  | nil => simp [blocksOf]
  | cons f fs ih => simp [blocksOf, ih]

theorem blocksOf_listCsv_not_mem (env : Env) (fs : List File) :
    Ev.listCsv ∉ blocksOf env fs := by
  induction fs with
  | nil => simp [blocksOf]
  | cons f fs ih => simp [blocksOf, ih]

theorem blocksOf_filter_upload (env : Env) (fs : List File) :
    (blocksOf env fs).filter isUpload = fs.map (fun f => Ev.upload f (keyFor env f)) := by
  induction fs with
  | nil => rfl
  | cons f fs ih =>
    simp only [blocksOf, List.map_cons, List.filter_cons]
    simp [isUpload, ih]

end ETL

/-- Claim C2: `clean_dataframe` performs exactly these steps in this order:
fill every null in a numeric column with the column median and every null in a
non-numeric column with the column mode (or "Unknown" when there is no mode);
drop duplicate rows; clip every numeric column to `[Q1 - 1.5*IQR,
Q3 + 1.5*IQR]`. -/
theorem ETL.c2_clean_dataframe_stages (df : ETL.DF) :
    ETL.cleanDataframe df = ETL.cleanSpec df := by
  unfold ETL.cleanDataframe ETL.cleanSpec
  simp only [ETL.DF.mk.injEq, true_and]
  have hfill : (if (List.range df.dtypes.length).any (fun j => ETL.colHasNull df.rows j)
      then ETL.fillStepGuarded df.dtypes df.rows else df.rows) =
      ETL.fillStepAll df.dtypes df.rows := by
    cases hany : (List.range df.dtypes.length).any (fun j => ETL.colHasNull df.rows j) with
    | true =>
      rw [if_pos (by simp [hany])]
      unfold ETL.fillStepGuarded ETL.fillStepAll
      exact ETL.foldl_fill_unguard (fun j => df.dtypes.getD j false) _ _
    | false =>
      rw [if_neg (by simp [hany])]
      have hnn : ∀ j ∈ List.range df.dtypes.length, ETL.colHasNull df.rows j = false := by
        intro j hj
        cases hc : ETL.colHasNull df.rows j with
        | false => rfl
        | true =>
          exfalso
          have hT : (List.range df.dtypes.length).any
              (fun j => ETL.colHasNull df.rows j) = true :=
            List.any_eq_true.mpr ⟨j, hj, hc⟩
          rw [hT] at hany
          exact Bool.noConfusion hany
      exact (ETL.foldl_fill_id (fun j => df.dtypes.getD j false) _ _ hnn).symm
  rw [hfill]
  by_cases hnd : (ETL.fillStepAll df.dtypes df.rows).Nodup
  · rw [if_pos hnd, ETL.dedupF_of_nodup _ hnd]
  · rw [if_neg hnd]

/-- Claim C1: for every processed file whose key holds a non-empty stored
dataframe, the merge-dedup step removes from the cleaned new dataframe exactly
the rows that occur (as full-row tuples) in the stored dataframe, appends the
remaining new rows after all stored rows, and deduplicates the concatenation
before upload; when the stored dataframe is empty, the uploaded dataframe is
the cleaned new dataframe with duplicate rows dropped. -/
theorem ETL.c1_merge_dedup_step (env : ETL.Env) (tok : String) (st : ETL.S3State)
    (f : ETL.File) (csvT : String) (df : ETL.DF) (old nw : List ETL.Row)
    (hd : env.downloadRes f.id tok = .ok csvT)
    (hp : env.parseCsv csvT = .ok df)
    (hu : env.uploadFail (ETL.keyFor env f) = false)
    (hold : ETL.loadExisting (st (ETL.keyFor env f)) = old)
    (hnw : (ETL.cleanDataframe df).rows = nw) :
    (old ≠ [] → (ETL.processFile env tok st f).2.1 (ETL.keyFor env f) =
      .found (ETL.dedupF (old ++ nw.filter (fun r => decide (r ∉ old))))) ∧
    (old = [] → (ETL.processFile env tok st f).2.1 (ETL.keyFor env f) =
      .found (ETL.dedupF nw)) := by
  rw [ETL.processFile_ok_store env tok st f csvT df hd hp hu, hold, hnw]
  constructor
  · intro hne
    have he : old.isEmpty = false := by
      cases old with
      | nil => exact absurd rfl hne
      | cons a as => rfl
    rw [he]
    simp only [Bool.false_eq_true, if_false]
    rw [ETL.filter_not_contains]
  · intro hnil
    rw [hnil]
    rfl

/-- Witness for C1 at a concrete run: the stored object holds one row, the
cleaned new dataframe holds that row and one more, and the uploaded object is
the stored row followed by the genuinely new row. -/
theorem ETL.c1_merge_dedup_step_witness :
    (ETL.processFile ETL.envOk "token" ETL.stWithX ETL.fileA).2.1 (ETL.keyFor ETL.envOk ETL.fileA) =
      .found (ETL.dedupF ([ETL.rowX] ++
        ([ETL.rowX, ETL.rowY]).filter (fun r => decide (r ∉ [ETL.rowX])))) :=
  (ETL.c1_merge_dedup_step ETL.envOk "token" ETL.stWithX ETL.fileA "csvtext" ETL.dfXY
    [ETL.rowX] [ETL.rowX, ETL.rowY] rfl rfl (by decide) (by decide) (by decide)).1 (by decide)

/-- Claim C3: the incremental deduplication is idempotent: when every row of
the cleaned new dataframe already occurs in the non-empty, duplicate-free
stored dataframe of the same key, the uploaded dataframe equals the stored
one. -/
theorem ETL.c3_dedup_idempotent (env : ETL.Env) (tok : String) (st : ETL.S3State)
    (f : ETL.File) (csvT : String) (df : ETL.DF) (old : List ETL.Row)
    (hd : env.downloadRes f.id tok = .ok csvT)
    (hp : env.parseCsv csvT = .ok df)
    (hu : env.uploadFail (ETL.keyFor env f) = false)
    (hold : st (ETL.keyFor env f) = .found old)
    (hne : old ≠ []) (hnd : old.Nodup)
    (hsub : ∀ r ∈ (ETL.cleanDataframe df).rows, r ∈ old) :
    (ETL.processFile env tok st f).2.1 (ETL.keyFor env f) = .found old := by
  rw [ETL.processFile_ok_store env tok st f csvT df hd hp hu, hold]
  simp only [ETL.loadExisting]
  have he : old.isEmpty = false := by
    cases old with
    | nil => exact absurd rfl hne
    | cons a as => rfl
  rw [he]
  simp only [Bool.false_eq_true, if_false]
  have hfil : (ETL.cleanDataframe df).rows.filter (fun r => !(old.contains r)) = [] := by
    rw [List.filter_eq_nil_iff]
    intro a ha
    simp [List.contains, List.elem_iff, hsub a ha]
  rw [hfil, List.append_nil, ETL.dedupF_of_nodup old hnd]

/-- Witness for C3 at a concrete run: both cleaned rows are already stored, so
the uploaded dataframe is exactly the stored one. -/
theorem ETL.c3_dedup_idempotent_witness :
    (ETL.processFile ETL.envOk "token" ETL.stWithXY ETL.fileA).2.1 (ETL.keyFor ETL.envOk ETL.fileA) =
      .found [ETL.rowX, ETL.rowY] :=
  ETL.c3_dedup_idempotent ETL.envOk "token" ETL.stWithXY ETL.fileA "csvtext" ETL.dfXY
    [ETL.rowX, ETL.rowY] rfl rfl (by decide) (by decide) (by decide) (by decide) (by decide)

/-- Claim C4: the pipeline is a linear, single-threaded batch sequence: a run
that completes authenticates once, lists the folder once, and its trace is the
per-file blocks (download, clean, merge-dedup load, upload) laid out one file
at a time in list order, so no step of a later file precedes any step of an
earlier file. -/
theorem ETL.c4_linear_pipeline_trace (env : ETL.Env) (st : ETL.S3State)
    (tr : List ETL.Ev) (st2 : ETL.S3State) (files : List ETL.File)
    (hrun : ETL.mainRun env st = (tr, st2, none))
    (hlist : env.listRes = .ok files) :
    tr = ETL.Ev.auth :: ETL.Ev.listCsv :: ETL.blocksOf env files ∧
    tr.count ETL.Ev.auth = 1 ∧ tr.count ETL.Ev.listCsv = 1 := by
  have h22 : (ETL.mainRun env st).2.2 = none := by rw [hrun]
  have htr1 : tr = (ETL.mainRun env st).1 := by rw [hrun]
  have htrace : tr = ETL.Ev.auth :: ETL.Ev.listCsv :: ETL.blocksOf env files := by
    rw [htr1, ETL.mainRun_trace_shape env st files h22 hlist]
  refine ⟨htrace, ?_, ?_⟩
  · rw [htrace]
    simp [List.count_cons, List.count_eq_zero.mpr (ETL.blocksOf_auth_not_mem env files)]
  · rw [htrace]
    simp [List.count_cons, List.count_eq_zero.mpr (ETL.blocksOf_listCsv_not_mem env files)]

/-- Witness for C4: a completing one-file run has the expected linear trace. -/
theorem ETL.c4_linear_pipeline_trace_witness :
    (ETL.mainRun ETL.envOk ETL.stEmpty).1 =
      ETL.Ev.auth :: ETL.Ev.listCsv :: ETL.blocksOf ETL.envOk [ETL.fileA] ∧
    (ETL.mainRun ETL.envOk ETL.stEmpty).1.count ETL.Ev.auth = 1 ∧
    (ETL.mainRun ETL.envOk ETL.stEmpty).1.count ETL.Ev.listCsv = 1 :=
  ETL.c4_linear_pipeline_trace ETL.envOk ETL.stEmpty _ _ [ETL.fileA] rfl rfl

/-- Claim C5: there is no failure recovery: an exception while authenticating
aborts the run after the auth step, one while listing aborts it after the
listing step, and one raised while processing a file ends the file loop with
exactly that file's events — no later file is processed and nothing is
retried. -/
theorem ETL.c5_no_failure_recovery (env : ETL.Env) (st : ETL.S3State) (tok : String)
    (f : ETL.File) (fs : List ETL.File) (e : ETL.Err) (evs : List ETL.Ev)
    (st2 : ETL.S3State)
    (hfold : ETL.truthy env.folderId = true) (hbuck : ETL.truthy env.bucket = true) :
    (env.authTok = .error e → ETL.mainRun env st = ([ETL.Ev.auth], st, some e)) ∧
    (env.authTok = .ok tok → env.listRes = .error e →
      ETL.mainRun env st = ([ETL.Ev.auth, ETL.Ev.listCsv], st, some e)) ∧
    (ETL.processFile env tok st f = (evs, st2, some e) →
      ETL.runFiles env tok st (f :: fs) = (evs, st2, some e) ∧
      ∀ ev ∈ evs, ETL.fileOf ev = some f) := by
  have hc : (ETL.truthy env.folderId && ETL.truthy env.bucket) = true := by
    simp [hfold, hbuck]
  refine ⟨?_, ?_, ?_⟩
  · intro ha
    exact ETL.mainRun_auth_err env st e hc ha
  · intro ha hl
    exact ETL.mainRun_list_err env st tok e hc ha hl
  · intro hpf
    have h22 : (ETL.processFile env tok st f).2.2 = some e := by rw [hpf]
    constructor
    · rw [ETL.runFiles_cons_err env tok st f fs e h22, hpf]
    · intro ev hev
      apply ETL.processFile_evs_file env tok st f
      rw [hpf]
      exact hev

/-- Witness for C5: concrete aborted runs for an auth failure, a listing
failure, and a download failure on the first of two files. -/
theorem ETL.c5_no_failure_recovery_witness :
    ETL.mainRun ETL.envAuthFail ETL.stEmpty = ([ETL.Ev.auth], ETL.stEmpty, some (.fail "auth")) ∧
    ETL.mainRun ETL.envListFail ETL.stEmpty =
      ([ETL.Ev.auth, ETL.Ev.listCsv], ETL.stEmpty, some (.fail "list")) ∧
    ETL.runFiles ETL.envDlFail "token" ETL.stEmpty [ETL.fileA, ETL.fileB] =
      ([ETL.Ev.download ETL.fileA], ETL.stEmpty, some (.fail "download")) :=
  ⟨(ETL.c5_no_failure_recovery ETL.envAuthFail ETL.stEmpty "token" ETL.fileA []
      (.fail "auth") [] ETL.stEmpty rfl rfl).1 rfl,
   (ETL.c5_no_failure_recovery ETL.envListFail ETL.stEmpty "token" ETL.fileA []
      (.fail "list") [] ETL.stEmpty rfl rfl).2.1 rfl rfl,
   ((ETL.c5_no_failure_recovery ETL.envDlFail ETL.stEmpty "token" ETL.fileA [ETL.fileB]
      (.fail "download") [ETL.Ev.download ETL.fileA] ETL.stEmpty rfl rfl).2.2 rfl).1⟩

/-- Claim C6: every listed file is written under SILVER_PREFIX followed by the
mapped parquet name — the EXPECTED_FILES entry of the lowercased name when
present, else the lowercased name with ".csv" replaced by "_parquet" — and a
completing run writes exactly one object per listed CSV file. -/
theorem ETL.c6_object_key_mapping (env : ETL.Env) (st : ETL.S3State)
    (tr : List ETL.Ev) (st2 : ETL.S3State) (files : List ETL.File)
    (hrun : ETL.mainRun env st = (tr, st2, none))
    (hlist : env.listRes = .ok files) :
    tr.filter ETL.isUpload =
      files.map (fun f => ETL.Ev.upload f (env.pfx ++ ETL.parquetNameSpec f.name)) ∧
    (tr.filter ETL.isUpload).length = files.length := by
  have h22 : (ETL.mainRun env st).2.2 = none := by rw [hrun]
  have htr1 : tr = (ETL.mainRun env st).1 := by rw [hrun]
  have htrace : tr = ETL.Ev.auth :: ETL.Ev.listCsv :: ETL.blocksOf env files := by
    rw [htr1, ETL.mainRun_trace_shape env st files h22 hlist]
  have hfil : tr.filter ETL.isUpload = files.map (fun f => ETL.Ev.upload f (ETL.keyFor env f)) := by
    rw [htrace]
    simp only [List.filter_cons]
    rw [ETL.blocksOf_filter_upload env files]
    rfl
  constructor
  · rw [hfil]
    simp only [ETL.keyFor_eq_spec]
  · rw [hfil, List.length_map]

/-- Witness for C6: the completing one-file run uploads exactly one object,
under the fallback key "datasets/a_parquet". -/
theorem ETL.c6_object_key_mapping_witness :
    (ETL.mainRun ETL.envOk ETL.stEmpty).1.filter ETL.isUpload =
      [ETL.fileA].map (fun f => ETL.Ev.upload f (ETL.envOk.pfx ++ ETL.parquetNameSpec f.name)) ∧
    ((ETL.mainRun ETL.envOk ETL.stEmpty).1.filter ETL.isUpload).length = [ETL.fileA].length :=
  ETL.c6_object_key_mapping ETL.envOk ETL.stEmpty _ _ [ETL.fileA] rfl rfl

/-- Claim C7: run_athena_query polls until the first terminal status; a
non-SUCCEEDED final status yields an empty dataframe without raising, and a
SUCCEEDED one yields the dataframe whose column names are the values of the
first result row and whose data rows are the remaining rows in order. -/
theorem ETL.c7_athena_query_result (statuses : List String)
    (resRows : List (List ETL.ACell)) (s : String)
    (hterm : ETL.firstTerminal statuses = some s) :
    (s ≠ "SUCCEEDED" → ETL.runAthenaQuery statuses resRows = some ([], [])) ∧
    (s = "SUCCEEDED" → ∀ hrow rest hdr, resRows = hrow :: rest →
      ETL.allSome hrow = some hdr →
      ETL.runAthenaQuery statuses resRows = some (hdr, rest)) := by
  constructor
  · intro hs
    unfold ETL.runAthenaQuery
    rw [hterm]
    show (if (s != "SUCCEEDED") = true then some ([], [])
      else match resRows with
        | [] => none
        | hrow :: rest =>
          match ETL.allSome hrow with
          | none => none
          | some hdr => some (hdr, rest)) = some ([], [])
    have hb : (s != "SUCCEEDED") = true := bne_iff_ne.mpr hs
    rw [hb, if_pos rfl]
  · intro hs hrow rest hdr hres hall
    unfold ETL.runAthenaQuery
    rw [hterm]
    show (if (s != "SUCCEEDED") = true then some ([], [])
      else match resRows with
        | [] => none
        | hrow :: rest =>
          match ETL.allSome hrow with
          | none => none
          | some hdr => some (hdr, rest)) = some (hdr, rest)
    have hb : (s != "SUCCEEDED") = false := by
      subst hs
      simp
    rw [hb]
    simp only [Bool.false_eq_true, if_false]
    rw [hres]
    show (match ETL.allSome hrow with
      | none => none
      | some hdr => some (hdr, rest)) = some (hdr, rest)
    rw [hall]

/-- Witness for C7: a failed query returns the empty dataframe, and a
successful one returns the first row as header and the rest as data. -/
theorem ETL.c7_athena_query_result_witness :
    ETL.runAthenaQuery ["QUEUED", "RUNNING", "FAILED"] [] = some ([], []) ∧
    ETL.runAthenaQuery ["RUNNING", "SUCCEEDED"]
      [[some "state", some "n"], [some "CA", none]] =
      some (["state", "n"], [[some "CA", none]]) :=
  ⟨(ETL.c7_athena_query_result ["QUEUED", "RUNNING", "FAILED"] [] "FAILED" rfl).1 (by decide),
   (ETL.c7_athena_query_result ["RUNNING", "SUCCEEDED"]
      [[some "state", some "n"], [some "CA", none]] "SUCCEEDED" rfl).2 rfl
      [some "state", some "n"] [[some "CA", none]] ["state", "n"] rfl rfl⟩

/-- Claim C8: when GDRIVE_FOLDER_ID or SILVER_BUCKET_NAME is unset or empty,
main exits with status 1 before authenticating, listing, downloading or
writing anything: the trace is empty and the bucket is untouched. -/
theorem ETL.c8_missing_env_exit (env : ETL.Env) (st : ETL.S3State)
    (h : ETL.truthy env.folderId = false ∨ ETL.truthy env.bucket = false) :
    ETL.mainRun env st = ([], st, some (.exit 1)) := by
  unfold ETL.mainRun
  have hc : (ETL.truthy env.folderId && ETL.truthy env.bucket) = false := by
    rcases h with h | h <;> simp [h]
  rw [hc]
  simp only [Bool.false_eq_true, if_false]

/-- Witness for C8: with the folder id unset the run exits with status 1,
an empty trace and an unchanged bucket. -/
theorem ETL.c8_missing_env_exit_witness :
    ETL.mainRun ETL.envNoFolder ETL.stEmpty = ([], ETL.stEmpty, some (.exit 1)) :=
  ETL.c8_missing_env_exit ETL.envNoFolder ETL.stEmpty (Or.inl rfl)

/-- Claim C9: every dataframe the pipeline writes is duplicate-free: after any
run, each key either still holds what it held before the run, or holds a
written dataframe with no duplicate rows. -/
theorem ETL.c9_no_duplicate_rows_stored (env : ETL.Env) (st : ETL.S3State) (k : String) :
    (ETL.mainRun env st).2.1 k = st k ∨
    ∃ rs, (ETL.mainRun env st).2.1 k = .found rs ∧ rs.Nodup := by
  unfold ETL.mainRun
  cases hc : (ETL.truthy env.folderId && ETL.truthy env.bucket) with
  | false => left; rfl
  | true =>
    cases ha : env.authTok with
    | error e => left; rfl
    | ok tok =>
      cases hl : env.listRes with
      | error e => left; rfl
      | ok files =>
        exact ETL.runFiles_store_inv env tok files st k

/-- Claim C10: load_existing_parquet is total over load outcomes: it returns
the stored dataframe on success and an empty dataframe both on a missing key
and on any other read failure — never raising — so a failed load is treated
exactly like an absent object. -/
theorem ETL.c10_load_existing_total :
    (∀ rs, ETL.loadExisting (.found rs) = rs) ∧
    ETL.loadExisting .missing = [] ∧
    (∀ m, ETL.loadExisting (.readErr m) = []) ∧
    (∀ m, ETL.loadExisting (.readErr m) = ETL.loadExisting .missing) :=
  ⟨fun _ => rfl, rfl, fun _ => rfl, fun _ => rfl⟩
